import Mathlib

/-!
Verification of the `surf` middleware chain (src/src/middleware/mod.rs) and
the `Client` per-verb request constructors (src/src/client.rs).

Embedding notes.

The Rust middleware capability is
`handle(req: Request, client: Box<dyn HttpClient>, next: Next<'a>) -> Result<Response, Exception>`,
where `Next<'a>` packs the remaining middleware slice and the terminal
endpoint, and the only operation the chain offers a middleware on `Next`
is `next.run(req, client)` (`Next` is `Copy`, so `run` may be invoked any
number of times). A direct Lean structure for `Next` whose middleware list
stores functions receiving `Next` itself is a negative occurrence, so the
embedding takes the standard continuation view: a middleware is a function
of the request, the transport handle, and the `run` capability of the
cursor it was given. `Next.run`'s two branches are translated branch for
branch from the source. The asynchronous `BoxFuture` wrapper is erased:
within one send the chain is a deterministic nested call, and the result
type `α` is kept abstract so that effect instrumentation (event logs,
invocation counters, `Except` errors) can be chosen per property.
-/

variable {ρ κ α β : Type}

/-- A middleware unit, seen through the one operation the chain gives it on
its cursor: `handle (req) (client) (next.run)`. Mirrors
`Middleware::handle(req, client, next)` of src/src/middleware/mod.rs; the
free-function `impl<F> Middleware for F` makes a plain function of this
shape a middleware, which is exactly what this type is. -/
def Mw (ρ κ α : Type) : Type :=
  ρ → κ → (ρ → κ → α) → α

/-- The remainder of a middleware chain, including the endpoint. Mirrors
`struct Next<'a> { next_middleware: &'a [Arc<dyn Middleware>], endpoint: &'a dyn Fn(Request, Box<dyn HttpClient>) -> ... }`. -/
structure Next (ρ κ α : Type) where
  next_middleware : List (Mw ρ κ α)
  endpoint : ρ → κ → α

/-- `Next::new(next, endpoint)` of src/src/middleware/mod.rs. -/
def Next.new (next : List (Mw ρ κ α)) (endpoint : ρ → κ → α) : Next ρ κ α :=
  { endpoint := endpoint, next_middleware := next }

/-- The recursion of `Next::run` on the remaining slice: if
`next_middleware.split_first()` yields `(current, next)`, run `current`'s
handle on the cursor advanced to `next`; otherwise call the endpoint.
Split out so the recursion is structural on the list. -/
def Next.runFrom (endpoint : ρ → κ → α) : List (Mw ρ κ α) → ρ → κ → α
  | current :: rest, req, client =>
      current req client (Next.runFrom endpoint rest)
  | [], req, client => endpoint req client

/-- `Next::run(self, req, client)` of src/src/middleware/mod.rs. -/
def Next.run (next : Next ρ κ α) : ρ → κ → α :=
  Next.runFrom next.endpoint next.next_middleware

/-- Marker events used to observe the chain's behaviour: what a middleware
at attachment index `i` emits before and after delegating, and one event
per invocation of the transport endpoint. -/
inductive Ev where
  | before (i : Nat)
  | after (i : Nat)
  | transport
deriving DecidableEq

/-- A fully transparent middleware: `next.run(req, client)` and nothing
else (the identity interceptor of the dispatch protocol). -/
def passThru : Mw ρ κ α :=
  fun req client next => next req client

/-- A logging middleware of attachment index `i`: emits `Ev.before i`
before calling `next.run` and `Ev.after i` after it returns, delegating
the request and handle unchanged (the doc example `Logger` of
src/src/middleware/mod.rs, with the log made explicit in the result). -/
def loggerMw (i : Nat) : Mw ρ κ (List Ev × β) :=
  fun req client next =>
    let p := next req client
    (Ev.before i :: p.1 ++ [Ev.after i], p.2)

/-- A transport endpoint double that emits one `Ev.transport` event per
invocation and answers with `f req client`. -/
def logTransport (f : ρ → κ → β) : ρ → κ → List Ev × β :=
  fun req client => ([Ev.transport], f req client)

/-- A middleware that short-circuits: returns `resp` without invoking the
cursor it was given (and hence emits no events). -/
def shortCircuitMw (resp : β) : Mw ρ κ (List Ev × β) :=
  fun _ _ _ => ([], resp)

/-- A retrying middleware: invokes `next.run` twice, first with request
`t1 req`, then with request `t2 req` (the cursor is `Copy`, so both
invocations use the same remaining suffix), combining the two results. -/
def callTwiceMw (t1 t2 : ρ → ρ) (comb : β → β → β) : Mw ρ κ (List ρ × β) :=
  fun req client next =>
    let p1 := next (t1 req) client
    let p2 := next (t2 req) client
    (p1.1 ++ p2.1, comb p1.2 p2.2)

/-- A transport endpoint double that records the request of each
invocation and answers with `f req`. -/
def recordEp (f : ρ → β) : ρ → κ → List ρ × β :=
  fun req _ => ([req], f req)

/-- A transparent middleware that counts its own dispatch: forwards the
call and adds one to the step count of the inner result. -/
def countPass : Mw ρ κ (Nat × β) :=
  fun req client next =>
    let p := next req client
    (p.1 + 1, p.2)

/-- A transport endpoint double for step counting: zero steps, answer
`f req client`. -/
def stepsEp (f : ρ → κ → β) : ρ → κ → Nat × β :=
  fun req client => (0, f req client)

/-- Running a block of logging middleware in front of any tail: the
indices wrap the tail's trace, before-events in list order, after-events
in reversed order. -/
theorem runFrom_loggers (endpoint : ρ → κ → List Ev × β) (is : List Nat)
    (tail : List (Mw ρ κ (List Ev × β))) (req : ρ) (client : κ) :
    Next.runFrom endpoint (is.map loggerMw ++ tail) req client
      = (is.map Ev.before ++ (Next.runFrom endpoint tail req client).1
           ++ is.reverse.map Ev.after,
         (Next.runFrom endpoint tail req client).2) := by
  induction is with
  | nil => simp [Next.runFrom]
  | cons i is ih =>
      simp [Next.runFrom, loggerMw, ih]

/-- A run over any number of transparent middleware reaches the endpoint
with the request and handle unchanged. -/
theorem runFrom_replicate_passThru (n : Nat) (endpoint : ρ → κ → α)
    (req : ρ) (client : κ) :
    Next.runFrom endpoint (List.replicate n (passThru (ρ := ρ) (κ := κ) (α := α)))
        req client
      = endpoint req client := by
  induction n with
  | zero => rfl
  | succ n ih => simpa [List.replicate_succ, Next.runFrom, passThru] using ih

/-- C1: for every chain cursor, `run` on a non-empty remaining sequence
splits off the first unit, builds a cursor over the rest with the same
endpoint, invokes the first unit's handle with it, and returns that result
verbatim; on an empty remaining sequence it invokes the terminal endpoint
with the request and transport handle and returns its result. -/
theorem next_run_dispatch :
    (∀ (current : Mw ρ κ α) (rest : List (Mw ρ κ α)) (endpoint : ρ → κ → α)
        (req : ρ) (client : κ),
      Next.run (Next.new (current :: rest) endpoint) req client
        = current req client ((Next.new rest endpoint).run)) ∧
    (∀ (endpoint : ρ → κ → α) (req : ρ) (client : κ),
      Next.run (Next.new [] endpoint) req client = endpoint req client) := by
  constructor
  · intro current rest endpoint req client
    rfl
  · intro endpoint req client
    rfl

/-- C2: for a middleware list of loggers with (arbitrary, in particular
pairwise distinct) markers `is` — length `N ≥ 0` — a send produces the
before-effects in attachment order (index 0 of the list first), then the
single transport event, then the after-effects in exact reverse attachment
order, around the endpoint's unchanged answer. -/
theorem middleware_phase_order (is : List Nat) (f : ρ → κ → β)
    (req : ρ) (client : κ) :
    Next.run (Next.new (is.map loggerMw) (logTransport f)) req client
      = (is.map Ev.before ++ [Ev.transport] ++ is.reverse.map Ev.after,
         f req client) := by
  have h := runFrom_loggers (logTransport f) is [] req client
  simpa [Next.run, Next.new, Next.runFrom, logTransport] using h

/-- C3: advancing the cursor hands the invoked unit a cursor whose
remaining sequence is exactly the tail — one element shorter, no unit
skipped or reordered — and the transport endpoint fires only at the empty
remaining sequence: a straight-through pass over `n` transparent
middleware invokes it exactly once (one `Ev.transport` event) with the
result returned unchanged, and in particular an empty middleware list
invokes the endpoint exactly once and returns its result unchanged. -/
theorem chain_advance_invariant :
    (∀ (current : Mw ρ κ α) (rest : List (Mw ρ κ α)) (endpoint : ρ → κ → α)
        (req : ρ) (client : κ),
      Next.run (Next.new (current :: rest) endpoint) req client
        = current req client ((Next.new rest endpoint).run)
      ∧ (Next.new rest endpoint).next_middleware = rest
      ∧ (Next.new rest endpoint).next_middleware.length + 1
          = (Next.new (current :: rest) endpoint).next_middleware.length) ∧
    (∀ (n : Nat) (f : ρ → κ → β) (req : ρ) (client : κ),
      Next.run (Next.new (List.replicate n passThru) (logTransport f)) req client
        = ([Ev.transport], f req client)) ∧
    (∀ (endpoint : ρ → κ → α) (req : ρ) (client : κ),
      Next.run (Next.new [] endpoint) req client = endpoint req client) := by
  refine ⟨fun current rest endpoint req client => ⟨rfl, rfl, rfl⟩, ?_,
    fun endpoint req client => rfl⟩
  intro n f req client
  simpa [Next.run, Next.new, logTransport]
    using runFrom_replicate_passThru n (logTransport f) req client

/-- C4: a middleware that returns a response without calling `next.run`
stops the chain: the trace holds only the enclosing loggers' events — no
transport event, and nothing from the middleware placed after it, whose
identity (and the endpoint's) is irrelevant to the result. -/
theorem short_circuit_skips_rest (is : List Nat) (resp : β)
    (suffix : List (Mw ρ κ (List Ev × β))) (endpoint : ρ → κ → List Ev × β)
    (req : ρ) (client : κ) :
    Next.run (Next.new (is.map loggerMw ++ shortCircuitMw resp :: suffix) endpoint)
        req client
      = (is.map Ev.before ++ is.reverse.map Ev.after, resp)
    ∧ Ev.transport ∉ is.map Ev.before ++ is.reverse.map Ev.after := by
  constructor
  · have h := runFrom_loggers endpoint is (shortCircuitMw resp :: suffix) req client
    simpa [Next.run, Next.new, Next.runFrom, shortCircuitMw] using h
  · simp

/-- C5: a middleware that invokes `next.run` twice — over the same
remaining suffix of `k` transparent units both times, the cursor being a
freely copyable view — causes the endpoint to be invoked exactly twice,
once with each request it forwarded (`t1 req` then `t2 req`), each
invocation producing its own independent result. -/
theorem retry_runs_endpoint_twice (t1 t2 : ρ → ρ) (comb : β → β → β)
    (f : ρ → β) (k : Nat) (req : ρ) (client : κ) :
    Next.run (Next.new (callTwiceMw t1 t2 comb :: List.replicate k passThru)
        (recordEp f)) req client
      = ([t1 req, t2 req], comb (f (t1 req)) (f (t2 req))) := by
  simp [Next.run, Next.new, Next.runFrom, callTwiceMw,
    runFrom_replicate_passThru, recordEp]

/-- C10: dispatch is well-founded on the length of the remaining slice —
each step hands the invoked unit a cursor exactly one element shorter, and
`Next.run` is a total function by structural recursion on that slice, the
middleware seeing the cursor only through the `run` capability handed to
it; counting one step per dispatched unit, a
straight-through pass over a chain of `n` middleware reaches the endpoint
after exactly `n` dispatch steps. -/
theorem chain_dispatch_terminates_in_n_steps (n : Nat) (f : ρ → κ → β)
    (req : ρ) (client : κ) :
    Next.run (Next.new (List.replicate n countPass) (stepsEp f)) req client
      = (n, f req client) := by
  induction n with
  | zero => rfl
  | succ n ih =>
      have ih' : Next.runFrom (stepsEp f) (List.replicate n countPass) req client
          = (n, f req client) := ih
      simp [Next.run, Next.new, List.replicate_succ, Next.runFrom, countPass, ih']

variable {ε : Type}

/-- A transport endpoint double that always fails with error `e` (a
network-error test double). -/
def failEp (e : ε) : ρ → κ → Except ε β :=
  fun _ _ => Except.error e

/-- A middleware does not intercept errors when, whatever request and
handle it forwards, a cursor that fails with `e` makes it return exactly
`Except.error e` — the `next.run(req, client).await?` discipline. -/
def PropagatesErrors (m : Mw ρ κ (Except ε β)) : Prop :=
  ∀ (req : ρ) (client : κ) (next : ρ → κ → Except ε β) (e : ε),
    (∀ r c, next r c = Except.error e) → m req client next = Except.error e

/-- A middleware that transforms only successful responses and forwards
errors untouched: `let res = next.run(req, client)?; Ok(g res)` (the shape
of the doc example `Logger`). -/
def mapOkMw (g : β → β) : Mw ρ κ (Except ε β) :=
  fun req client next =>
    match next req client with
    | Except.ok v => Except.ok (g v)
    | Except.error e => Except.error e

theorem runFrom_error (e : ε) (ms : List (Mw ρ κ (Except ε β)))
    (h : ∀ m ∈ ms, PropagatesErrors m) :
    ∀ (req : ρ) (client : κ),
      Next.runFrom (failEp e) ms req client = Except.error e := by
  induction ms with
  | nil => intro req client; rfl
  | cons m ms ih =>
      intro req client
      exact h m (by simp) req client _ e
        (fun r c => ih (fun m' hm' => h m' (by simp [hm'])) r c)

/-- C6: when the endpoint fails with `e` and no middleware in the chain
intercepts errors, the send returns exactly `Except.error e` to the
original caller — the chain itself never catches, transforms or
substitutes it, and the `Except.error` result carries no response at
all, partial or otherwise. -/
theorem errors_propagate_unchanged (ms : List (Mw ρ κ (Except ε β)))
    (h : ∀ m ∈ ms, PropagatesErrors m) (e : ε) (req : ρ) (client : κ) :
    Next.run (Next.new ms (failEp e)) req client = Except.error e :=
  runFrom_error e ms h req client

/-- A concrete instance of `errors_propagate_unchanged`: one
success-mapping middleware over an endpoint failing with error `7`
returns exactly `Except.error 7`. -/
theorem errors_propagate_unchanged_witness :
    Next.run (Next.new [mapOkMw (ρ := Nat) (κ := Nat) (ε := Nat) (· + 1)]
        (failEp 7)) 0 0 = Except.error 7 :=
  errors_propagate_unchanged [mapOkMw (· + 1)]
    (by
      intro m hm
      simp only [List.mem_singleton] at hm
      subst hm
      intro req client next e h
      simp [mapOkMw, h])
    7 0 0

variable {H : Type}

/-- The nine HTTP verbs fixed by the per-verb constructors of
src/src/client.rs (`http::Method` is external; only these constants are
used). -/
inductive Method where
  | GET
  | HEAD
  | POST
  | PUT
  | DELETE
  | CONNECT
  | OPTIONS
  | TRACE
  | PATCH
deriving DecidableEq

/-- A parsed target URI. URI parsing itself is an external collaborator
(`str::parse::<http::Uri>`), so the embedding keeps the parsed value
opaque and takes the parser as a parameter below. -/
structure Uri where
  raw : String
deriving DecidableEq

/-- `Client` of src/src/client.rs: `{ client: Arc<dyn HttpClient> }`, one
shared transport handle. The handle type `H` is abstract; cloning the
`Arc` hands out the same underlying capability, embedded as the same
value. -/
structure Client (H : Type) where
  client : H
deriving DecidableEq

/-- Modelled from the spec: the `Request` produced by
`Request::with_client` (src/request.rs is not among the sources; §3 gives
a request as method, absolute target URI, headers, body, plus the bound
transport handle). Only the fields the constructors set are kept; header
and body accumulation happen after construction and are independent of
the constructor properties. -/
structure Request (H : Type) where
  method : Method
  uri : Uri
  client : H
deriving DecidableEq

/-- Modelled from the spec: `Request::with_client(method, uri, client)`
records the verb, the parsed target and the transport handle on a fresh
request. -/
def Request.with_client (method : Method) (uri : Uri) (client : H) :
    Request H :=
  { method := method, uri := uri, client := client }

/-- `Client::get` of src/src/client.rs:
`let uri = uri.as_ref().to_owned().parse().unwrap();
Request::with_client(http::Method::GET, uri, self.client.clone())`.
The parser is the external `parse`; `unwrap` on a parse failure panics —
the construction aborts fatally and no request value ever exists —
embedded as `none`. -/
def Client.get (c : Client H) (parse : String → Option Uri) (uri : String) :
    Option (Request H) :=
  (parse uri).map (fun u => Request.with_client Method.GET u c.client)

/-- `Client::head` of src/src/client.rs; same shape as `Client.get`. -/
def Client.head (c : Client H) (parse : String → Option Uri) (uri : String) :
    Option (Request H) :=
  (parse uri).map (fun u => Request.with_client Method.HEAD u c.client)

/-- `Client::post` of src/src/client.rs; same shape as `Client.get`. -/
def Client.post (c : Client H) (parse : String → Option Uri) (uri : String) :
    Option (Request H) :=
  (parse uri).map (fun u => Request.with_client Method.POST u c.client)

/-- `Client::put` of src/src/client.rs; same shape as `Client.get`. -/
def Client.put (c : Client H) (parse : String → Option Uri) (uri : String) :
    Option (Request H) :=
  (parse uri).map (fun u => Request.with_client Method.PUT u c.client)

/-- `Client::delete` of src/src/client.rs; same shape as `Client.get`. -/
def Client.delete (c : Client H) (parse : String → Option Uri) (uri : String) :
    Option (Request H) :=
  (parse uri).map (fun u => Request.with_client Method.DELETE u c.client)

/-- `Client::connect` of src/src/client.rs; same shape as `Client.get`. -/
def Client.connect (c : Client H) (parse : String → Option Uri) (uri : String) :
    Option (Request H) :=
  (parse uri).map (fun u => Request.with_client Method.CONNECT u c.client)

/-- `Client::options` of src/src/client.rs; same shape as `Client.get`. -/
def Client.options (c : Client H) (parse : String → Option Uri) (uri : String) :
    Option (Request H) :=
  (parse uri).map (fun u => Request.with_client Method.OPTIONS u c.client)

/-- `Client::trace` of src/src/client.rs; same shape as `Client.get`. -/
def Client.trace (c : Client H) (parse : String → Option Uri) (uri : String) :
    Option (Request H) :=
  (parse uri).map (fun u => Request.with_client Method.TRACE u c.client)

/-- `Client::patch` of src/src/client.rs; same shape as `Client.get`. -/
def Client.patch (c : Client H) (parse : String → Option Uri) (uri : String) :
    Option (Request H) :=
  (parse uri).map (fun u => Request.with_client Method.PATCH u c.client)

/-- A parser double for concrete instances: rejects the empty string,
accepts everything else. -/
def stubParse (s : String) : Option Uri :=
  if s = "" then none else some { raw := s }

theorem client_of_map (c : Client H) (m : Method) (o : Option Uri)
    (req : Request H)
    (h : o.map (fun u => Request.with_client m u c.client) = some req) :
    req.client = c.client := by
  cases o with
  | none => exact absurd h (by simp)
  | some u =>
      have hr : Request.with_client m u c.client = req := by simpa using h
      subst hr
      rfl

/-- C7: a target string the URI parser rejects makes every one of the nine
per-verb constructors abort at construction time (`unwrap` on the parse
result — a fatal configuration failure): no request value is ever created,
so nothing is left to defer to send time, and no middleware or transport
is ever touched. -/
theorem bad_uri_fails_at_construction (H : Type)
    (parse : String → Option Uri) (c : Client H) (uri : String)
    (hbad : parse uri = none) :
    c.get parse uri = none ∧ c.head parse uri = none
    ∧ c.post parse uri = none ∧ c.put parse uri = none
    ∧ c.delete parse uri = none ∧ c.connect parse uri = none
    ∧ c.options parse uri = none ∧ c.trace parse uri = none
    ∧ c.patch parse uri = none := by
  simp [Client.get, Client.head, Client.post, Client.put, Client.delete,
    Client.connect, Client.options, Client.trace, Client.patch, hbad]

/-- A concrete instance of `bad_uri_fails_at_construction`: the parser
double rejects the empty string and all nine constructors return no
request. -/
theorem bad_uri_fails_at_construction_witness :
    stubParse "" = none ∧
    ((Client.mk 0 : Client Nat).get stubParse "" = none
      ∧ (Client.mk 0 : Client Nat).head stubParse "" = none
      ∧ (Client.mk 0 : Client Nat).post stubParse "" = none
      ∧ (Client.mk 0 : Client Nat).put stubParse "" = none
      ∧ (Client.mk 0 : Client Nat).delete stubParse "" = none
      ∧ (Client.mk 0 : Client Nat).connect stubParse "" = none
      ∧ (Client.mk 0 : Client Nat).options stubParse "" = none
      ∧ (Client.mk 0 : Client Nat).trace stubParse "" = none
      ∧ (Client.mk 0 : Client Nat).patch stubParse "" = none) :=
  ⟨by decide, bad_uri_fails_at_construction Nat stubParse (Client.mk 0) ""
    (by decide)⟩

/-- C9: the per-verb constructors are pure functions of the client value
(the source receiver is a shared `&self` borrow and writes nothing), and
whenever one of the nine returns a request, that request carries exactly
the client's shared handle (`self.client.clone()` on the `Arc` yields the
same underlying capability); hence any two requests built from the same
client share one transport capability. -/
theorem verb_constructors_share_client_handle (H : Type)
    (parse : String → Option Uri) (c : Client H) :
    (∀ (uri : String) (req : Request H),
      (c.get parse uri = some req ∨ c.head parse uri = some req
        ∨ c.post parse uri = some req ∨ c.put parse uri = some req
        ∨ c.delete parse uri = some req ∨ c.connect parse uri = some req
        ∨ c.options parse uri = some req ∨ c.trace parse uri = some req
        ∨ c.patch parse uri = some req) → req.client = c.client) ∧
    (∀ (uri1 uri2 : String) (req1 req2 : Request H),
      (c.get parse uri1 = some req1 ∨ c.head parse uri1 = some req1
        ∨ c.post parse uri1 = some req1 ∨ c.put parse uri1 = some req1
        ∨ c.delete parse uri1 = some req1 ∨ c.connect parse uri1 = some req1
        ∨ c.options parse uri1 = some req1 ∨ c.trace parse uri1 = some req1
        ∨ c.patch parse uri1 = some req1) →
      (c.get parse uri2 = some req2 ∨ c.head parse uri2 = some req2
        ∨ c.post parse uri2 = some req2 ∨ c.put parse uri2 = some req2
        ∨ c.delete parse uri2 = some req2 ∨ c.connect parse uri2 = some req2
        ∨ c.options parse uri2 = some req2 ∨ c.trace parse uri2 = some req2
        ∨ c.patch parse uri2 = some req2) →
      req1.client = req2.client) := by
  have key : ∀ (uri : String) (req : Request H),
      (c.get parse uri = some req ∨ c.head parse uri = some req
        ∨ c.post parse uri = some req ∨ c.put parse uri = some req
        ∨ c.delete parse uri = some req ∨ c.connect parse uri = some req
        ∨ c.options parse uri = some req ∨ c.trace parse uri = some req
        ∨ c.patch parse uri = some req) → req.client = c.client := by
    intro uri req h
    rcases h with h | h | h | h | h | h | h | h | h <;>
      exact client_of_map c _ _ req h
  exact ⟨key, fun uri1 uri2 req1 req2 h1 h2 =>
    (key uri1 req1 h1).trans (key uri2 req2 h2).symm⟩

/-- A concrete instance of `verb_constructors_share_client_handle`: a GET
request and a POST request built from the client with handle `5` both
carry handle `5`. -/
theorem verb_constructors_share_client_handle_witness :
    (Request.mk Method.GET (Uri.mk "u") 5 : Request Nat).client
      = (Request.mk Method.POST (Uri.mk "v") 5 : Request Nat).client :=
  (verb_constructors_share_client_handle Nat stubParse (Client.mk 5)).2
    "u" "v" (Request.mk Method.GET (Uri.mk "u") 5)
    (Request.mk Method.POST (Uri.mk "v") 5)
    (Or.inl (by decide)) (Or.inr (Or.inr (Or.inl (by decide))))
